import Mathlib

/-!
Shallow embedding of the chat application's message delivery protocol.

Server side: `src/backend/server.js` (handleSendMessage, handleAckMessage,
sendUndeliveredMessages, generateMessageId, the connection/disconnection
handling). The helper modules `messages.js` and `sockets.js` are not part of
the sources; their operations are modelled from the specification's Outbox
Store and Connection Registry contracts and are marked as such.

Client side: the unnamed source file (a WebSocket chat client, `ChatApp`):
handleIncomingMessage, handleUndeliveredBatch, handleAckMessage,
appendMessage, sendMessage, selectContact, handleOpen, handleClose,
scheduleReconnect.

JavaScript falsiness of a missing or empty string field is modelled by the
empty string; a missing numeric timestamp (or the falsy timestamp 0) is
modelled by 0.
-/

namespace Chat

/-- A stored message, as constructed by the server's handleSendMessage.
The JavaScript field `from` is a Lean keyword, rendered here as `from_`. -/
structure Msg where
  serverMsgId : String
  clientMsgId : String
  from_ : String
  to_ : String
  body : String
  ts : Nat
deriving DecidableEq, Repr

/-- Projection of a stored message to the wire shape used by
incoming_message frames and by the elements of an undelivered_batch:
serverMsgId, from, body, ts. -/
structure WireMsg where
  serverMsgId : String
  from_ : String
  body : String
  ts : Nat
deriving DecidableEq, Repr

/-- A connection handle; isOpen models `readyState === WebSocket.OPEN`. -/
structure Sock where
  isOpen : Bool
deriving DecidableEq, Repr

/-- Wire frames exchanged between client and server, discriminated by the
JSON `type` field. ackMsg covers both shapes: the server-to-sender transport
receipt carries clientMsgId and to, the client-to-server receipt ack carries
only serverMsgId (clientMsgId and to are none). -/
inductive Frame where
  | incomingMsg (serverMsgId from_ body : String) (ts : Nat)
  | ackMsg (serverMsgId : String) (clientMsgId to_ : Option String)
  | presenceUpd (user status : String)
  | undeliveredBatch (messages : List WireMsg)
  | errorMsg (error : String)
  | pong (timestamp : Nat)
  | sendMsg (clientMsgId to_ body : String) (ts : Nat)
  | ping
deriving DecidableEq, Repr

/-- Server state: the Connection Registry (identity to socket) and the
Outbox Store (accepted messages awaiting acknowledgment, insertion order). -/
structure ServerState where
  socks : List (String × Sock)
  outbox : List Msg
deriving DecidableEq, Repr

/-- Modelled from the spec: Connection Registry `lookup` (sockets.js
getSocket, not under src/): the handle of the most recent register for the
identity, or absent. -/
def getSocket (st : ServerState) (user : String) : Option Sock :=
  (st.socks.find? (fun e => e.1 == user)).map (fun e => e.2)

/-- Modelled from the spec: Connection Registry `register` (sockets.js
registerUser, not under src/): replaces any existing handle for the
identity. -/
def registerUser (st : ServerState) (user : String) (s : Sock) : ServerState :=
  { st with socks := (user, s) :: st.socks.filter (fun e => ! (e.1 == user)) }

/-- Modelled from the spec: Connection Registry `unregister` (sockets.js
unregisterUser, not under src/): removes the mapping if present, no-op
otherwise. -/
def unregisterUser (st : ServerState) (user : String) : ServerState :=
  { st with socks := st.socks.filter (fun e => ! (e.1 == user)) }

/-- Modelled from the spec: Connection Registry `listOnline` (sockets.js
getOnlineUsers, not under src/). -/
def getOnlineUsers (st : ServerState) : List String :=
  st.socks.map (fun e => e.1)

/-- Modelled from the spec: Outbox Store `add` (messages.js addMessage, not
under src/): inserts the entry, keyed by serverMsgId, in insertion order. -/
def addMessage (st : ServerState) (m : Msg) : ServerState :=
  { st with outbox := st.outbox ++ [m] }

/-- Modelled from the spec: Outbox Store lookup (messages.js getMessage, not
under src/): the entry with the given serverMsgId, or absent. -/
def getMessage (st : ServerState) (id : String) : Option Msg :=
  st.outbox.find? (fun m => m.serverMsgId == id)

/-- Modelled from the spec: Outbox Store `remove` (messages.js
removeMessage, not under src/): removes the entry with the given
serverMsgId; absence is not an error. -/
def removeMessage (st : ServerState) (id : String) : ServerState :=
  { st with outbox := st.outbox.filter (fun m => ! (m.serverMsgId == id)) }

/-- Modelled from the spec: Outbox Store `drainFor` (messages.js
getMessagesForUser, not under src/): every stored entry whose `to` equals
the identity, in insertion order, without removing them. -/
def getMessagesForUser (st : ServerState) (user : String) : List Msg :=
  st.outbox.filter (fun m => m.to_ == user)

/-- Decimal representation of a natural number, as produced by the
JavaScript template literal for `Date.now()`. -/
def decRepr (n : Nat) : String :=
  if n = 0 then "0" else ⟨((Nat.digits 10 n).map Nat.digitChar).reverse⟩

/-- generateMessageId from server.js: the decimal timestamp, a hyphen, and
the hex expansion of 8 random bytes (16 hex characters); the timestamp and
the random hex string are inputs from the runtime environment. -/
def generateMessageId (now : Nat) (randHex : String) : String :=
  decRepr now ++ "-" ++ randHex

/-- The payload of a send_message frame as destructured by
handleSendMessage; an absent or empty string field is the empty string, an
absent or falsy ts is 0. -/
structure SendPayload where
  clientMsgId : String
  to_ : String
  body : String
  ts : Nat
deriving DecidableEq, Repr

/-- The message object constructed by handleSendMessage (`ts: ts ||
Date.now()`). -/
def mkMsg (from_ : String) (p : SendPayload) (now : Nat) (randHex : String) : Msg :=
  { serverMsgId := generateMessageId now randHex
    clientMsgId := p.clientMsgId
    from_ := from_
    to_ := p.to_
    body := p.body
    ts := if p.ts = 0 then now else p.ts }

/-- handleSendMessage from server.js: validate the payload (reject with no
state created otherwise), assign a fresh serverMsgId, forward an
incoming_message frame directly when the recipient's socket is open, store
the message in the Outbox in either case, and send the transport-receipt
ack_message frame (serverMsgId, clientMsgId, to) back to the sender when
the sender's socket is open. Returns the new state and the emitted frames
tagged with their recipient. -/
def handleSendMessage (from_ : String) (p : SendPayload) (now : Nat)
    (randHex : String) (st : ServerState) : ServerState × List (String × Frame) :=
  if p.clientMsgId = "" ∨ p.to_ = "" ∨ p.body = "" then (st, [])
  else
    let msg := mkMsg from_ p now randHex
    let deliver : List (String × Frame) :=
      match getSocket st p.to_ with
      | some s =>
          if s.isOpen then
            [(p.to_, Frame.incomingMsg msg.serverMsgId msg.from_ msg.body msg.ts)]
          else []
      | none => []
    let receipt : List (String × Frame) :=
      match getSocket st from_ with
      | some s =>
          if s.isOpen then
            [(from_, Frame.ackMsg msg.serverMsgId (some msg.clientMsgId) (some msg.to_))]
          else []
      | none => []
    (addMessage st msg, deliver ++ receipt)

/-- handleAckMessage from server.js: reject a falsy serverMsgId; look the
message up; only when it exists and its `to` equals the acking username is
it removed from the store; otherwise the ack is ignored. No frame is ever
emitted. -/
def handleAckMessage (username : String) (serverMsgId : String)
    (st : ServerState) : ServerState × List (String × Frame) :=
  if serverMsgId = "" then (st, [])
  else
    match getMessage st serverMsgId with
    | some msg =>
        if msg.to_ == username then (removeMessage st serverMsgId, [])
        else (st, [])
    | none => (st, [])

/-- sendUndeliveredMessages from server.js: read the stored messages for
the user and, when non-empty, send them as one undelivered_batch frame;
the store is not modified. -/
def sendUndeliveredMessages (username : String) (st : ServerState) :
    ServerState × List (String × Frame) :=
  let undelivered := getMessagesForUser st username
  if undelivered.length > 0 then
    (st, [(username, Frame.undeliveredBatch (undelivered.map
      (fun m => { serverMsgId := m.serverMsgId, from_ := m.from_,
                  body := m.body, ts := m.ts })))])
  else (st, [])

/-- broadcastPresence from server.js: a presence_update frame to every
online user other than the subject whose socket is open. -/
def broadcastPresence (username status : String) (st : ServerState) :
    List (String × Frame) :=
  (getOnlineUsers st).filterMap (fun u =>
    if u ≠ username then
      match getSocket st u with
      | some s => if s.isOpen then some (u, Frame.presenceUpd username status) else none
      | none => none
    else none)

/-- Events processed by the server: a websocket connection (register,
presence broadcast, undelivered drain), a disconnection, and the inbound
frames dispatched by handleMessage. For a send event, now and randHex are
the runtime inputs consumed by generateMessageId. -/
inductive ServerEvent where
  | connect (user : String) (s : Sock)
  | disconnect (user : String)
  | recvSend (user : String) (p : SendPayload) (now : Nat) (randHex : String)
  | recvAck (user : String) (serverMsgId : String)
  | recvPing (user : String) (now : Nat)
deriving DecidableEq, Repr

/-- One step of the server: the wss connection handler and the
handleMessage dispatch from server.js. -/
def serverStep (e : ServerEvent) (st : ServerState) :
    ServerState × List (String × Frame) :=
  match e with
  | .connect user s =>
      let st1 := registerUser st user s
      let pres := broadcastPresence user "online" st1
      let (st2, batch) := sendUndeliveredMessages user st1
      (st2, pres ++ batch)
  | .disconnect user =>
      let st1 := unregisterUser st user
      (st1, broadcastPresence user "offline" st1)
  | .recvSend user p now randHex => handleSendMessage user p now randHex st
  | .recvAck user id => handleAckMessage user id st
  | .recvPing user now => (st, [(user, Frame.pong now)])

/-- The connection status texts passed to updateConnectionStatus by the
client; reconnecting carries the raw delay in milliseconds (the status text
shows it rounded up to seconds). -/
inductive ConnStatus where
  | connecting
  | connected
  | disconnected
  | reconnecting (delayMs : Nat)
  | failedFinal
deriving DecidableEq, Repr

/-- A message element in the client's messages container (one appended
div): its data and its CSS classes pending, delivered, failed. A received
message has no clientMsgId, a sent one initially has no serverMsgId. -/
structure Rendered where
  from_ : String
  to_ : String
  body : String
  ts : Nat
  clientMsgId : Option String
  serverMsgId : Option String
  pending : Bool
  delivered : Bool
  failed : Bool
deriving DecidableEq, Repr

/-- The ChatApp client state: seenMessageIds, the keys of the
pendingMessages map (each key's element is the entry of `rendered` carrying
that clientMsgId), the messages container contents in order, the selected
contact (empty string when none is selected, as in the JavaScript falsiness
test), the socket's open flag, and the reconnection bookkeeping
(reconnectAttempts, whether reconnectTimer is set, the status text). -/
structure ClientState where
  currentUser : String
  selectedContact : String
  seen : List String
  pendingKeys : List String
  rendered : List Rendered
  socketOpen : Bool
  reconnectAttempts : Nat
  timerPending : Bool
  status : ConnStatus
deriving DecidableEq, Repr

/-- MAX_RECONNECT_ATTEMPTS from the client. -/
def MAX_RECONNECT_ATTEMPTS : Nat := 5

/-- BASE_DELAY from the client, in milliseconds. -/
def BASE_DELAY : Nat := 1000

/-- appendMessage from the client: when a contact is selected and the
message's counterpart (`to` for an own message, `from` otherwise) is not
that contact, nothing is appended and null is returned; otherwise the div
is appended to the messages container. Returns the state and whether an
element was appended. -/
def appendMessage (c : ClientState) (r : Rendered) : ClientState × Bool :=
  let otherUser := if r.from_ = c.currentUser then r.to_ else r.from_
  if c.selectedContact ≠ "" ∧ otherUser ≠ c.selectedContact then (c, false)
  else ({ c with rendered := c.rendered ++ [r] }, true)

/-- handleIncomingMessage from the client: a serverMsgId already in
seenMessageIds is dropped silently with no frame sent; otherwise it is
added to seenMessageIds, the message is passed to appendMessage, and when
the socket is open an ack_message frame carrying only the serverMsgId is
sent back. -/
def handleIncomingMessage (c : ClientState) (w : WireMsg) :
    ClientState × List Frame :=
  if c.seen.contains w.serverMsgId then (c, [])
  else
    let c1 := { c with seen := c.seen ++ [w.serverMsgId] }
    let r : Rendered :=
      { from_ := w.from_, to_ := c.currentUser, body := w.body, ts := w.ts
        clientMsgId := none, serverMsgId := some w.serverMsgId
        pending := false, delivered := false, failed := false }
    let c2 := (appendMessage c1 r).1
    if c2.socketOpen then (c2, [Frame.ackMsg w.serverMsgId none none])
    else (c2, [])

/-- The client's handleAckMessage: when the frame carries a truthy
clientMsgId present in pendingMessages, the referenced element loses its
pending class, gains delivered, records the serverMsgId, and the map entry
is deleted; otherwise nothing happens. -/
def clientHandleAck (c : ClientState) (serverMsgId : String)
    (clientMsgId : Option String) : ClientState :=
  match clientMsgId with
  | some cid =>
      if cid ≠ "" ∧ c.pendingKeys.contains cid then
        { c with
          rendered := c.rendered.map (fun r =>
            if r.clientMsgId == some cid then
              { r with pending := false, delivered := true,
                       serverMsgId := some serverMsgId }
            else r)
          pendingKeys := c.pendingKeys.filter (fun k => ! (k == cid)) }
      else c
  | none => c

/-- handleUndeliveredBatch from the client: each contained message is fed
through handleIncomingMessage, in order. -/
def handleUndeliveredBatch (c : ClientState) (msgs : List WireMsg) :
    ClientState × List Frame :=
  msgs.foldl (fun acc m =>
    let r := handleIncomingMessage acc.1 m
    (r.1, acc.2 ++ r.2)) (c, [])

/-- The JavaScript String trim: strips leading and trailing whitespace. -/
def jsTrim (s : String) : String :=
  ⟨((s.data.dropWhile Char.isWhitespace).reverse.dropWhile Char.isWhitespace).reverse⟩

/-- sendMessage from the client: requires a non-empty trimmed body and a
selected contact (local no-op otherwise); generates nothing here — the
fresh clientMsgId and timestamp are inputs; appends a pending element,
records it in pendingMessages, and either transmits the send_message frame
(socket open) or marks the element failed. -/
def sendMessage (c : ClientState) (rawBody clientMsgId : String) (ts : Nat) :
    ClientState × List Frame :=
  let body := jsTrim rawBody
  if body = "" ∨ c.selectedContact = "" then (c, [])
  else
    let r : Rendered :=
      { from_ := c.currentUser, to_ := c.selectedContact, body := body, ts := ts
        clientMsgId := some clientMsgId, serverMsgId := none
        pending := true, delivered := false, failed := false }
    let c1 := (appendMessage c r).1
    let c2 := { c1 with pendingKeys := c1.pendingKeys ++ [clientMsgId] }
    if c2.socketOpen then (c2, [Frame.sendMsg clientMsgId c.selectedContact body ts])
    else
      ({ c2 with rendered := c2.rendered.map (fun e =>
          if e.clientMsgId == some clientMsgId then { e with failed := true } else e) },
       [])

/-- selectContact from the client: sets the selected contact and clears the
messages container. -/
def selectContact (c : ClientState) (contact : String) : ClientState :=
  { c with selectedContact := contact, rendered := [] }

/-- handlePresenceUpdate only touches the contact list status dot; it has
no effect on the modelled state. -/
def handlePresenceUpdate (c : ClientState) : ClientState := c

/-- The client's handleMessage dispatch on the frame type: incoming_message,
ack_message, presence_update and undelivered_batch are handled; every other
type only logs a warning. Returns the new state and the frames the client
sends in response. -/
def clientDispatch (c : ClientState) (f : Frame) : ClientState × List Frame :=
  match f with
  | .incomingMsg id from_ body ts =>
      handleIncomingMessage c { serverMsgId := id, from_ := from_, body := body, ts := ts }
  | .ackMsg id cid _ => (clientHandleAck c id cid, [])
  | .presenceUpd _ _ => (handlePresenceUpdate c, [])
  | .undeliveredBatch msgs => handleUndeliveredBatch c msgs
  | _ => (c, [])

/-- Processing of a sequence of inbound frames by the client, collecting
the frames it sends. -/
def clientProcess (c : ClientState) (fs : List Frame) : ClientState × List Frame :=
  fs.foldl (fun acc f =>
    let r := clientDispatch acc.1 f
    (r.1, acc.2 ++ r.2)) (c, [])

/-- handleOpen from the client: resets reconnectAttempts to zero; the
socket is now open. -/
def handleOpen (c : ClientState) : ClientState :=
  { c with reconnectAttempts := 0, socketOpen := true, status := .connected }

/-- scheduleReconnect from the client: a no-op while a reconnect timer is
already pending; otherwise increments reconnectAttempts and arms the timer
with delay min(BASE_DELAY * 2 ^ (attempts - 1), 30000) milliseconds.
Returns the state and the scheduled delay, if any. -/
def scheduleReconnect (c : ClientState) : ClientState × Option Nat :=
  if c.timerPending then (c, none)
  else
    let attempts := c.reconnectAttempts + 1
    let delay := min (BASE_DELAY * 2 ^ (attempts - 1)) 30000
    ({ c with reconnectAttempts := attempts, timerPending := true,
              status := .reconnecting delay }, some delay)

/-- handleClose from the client: the socket is closed; an unclean close
with fewer than MAX_RECONNECT_ATTEMPTS attempts schedules a reconnect,
while reconnectAttempts at or past the maximum surfaces the terminal
failure status. Returns the state and the scheduled delay, if any. -/
def handleClose (c : ClientState) (wasClean : Bool) : ClientState × Option Nat :=
  let c0 := { c with socketOpen := false, status := .disconnected }
  if ¬ wasClean ∧ c0.reconnectAttempts < MAX_RECONNECT_ATTEMPTS then
    scheduleReconnect c0
  else if c0.reconnectAttempts ≥ MAX_RECONNECT_ATTEMPTS then
    ({ c0 with status := .failedFinal }, none)
  else (c0, none)

/-- A server-to-client delivery of message content: either a direct
incoming_message frame or an undelivered_batch frame. These are the two
paths by which the same serverMsgId can reach a recipient. -/
inductive DeliveryFrame where
  | direct (w : WireMsg)
  | batch (ws : List WireMsg)
deriving DecidableEq, Repr

/-- Clients handle the two delivery paths by handleIncomingMessage and
handleUndeliveredBatch respectively. -/
def applyDelivery (c : ClientState) (d : DeliveryFrame) : ClientState × List Frame :=
  match d with
  | .direct w => handleIncomingMessage c w
  | .batch ws => handleUndeliveredBatch c ws

/-- The client state after a sequence of delivery frames. -/
def applyDeliveries (c : ClientState) (ds : List DeliveryFrame) : ClientState :=
  ds.foldl (fun c d => (applyDelivery c d).1) c

/-- The rendering invariant: every serverMsgId has at most one rendered
entry in the messages container, and every rendered serverMsgId is in the
Seen-Set. -/
def RenderInv (c : ClientState) : Prop :=
  (∀ id : String, c.rendered.countP (fun r => r.serverMsgId == some id) ≤ 1)
  ∧ (∀ r ∈ c.rendered, ∀ id : String, r.serverMsgId = some id → id ∈ c.seen)

/-- A fresh client session for alice, socket open, no contact selected. -/
def aliceClient : ClientState :=
  { currentUser := "alice", selectedContact := "", seen := [], pendingKeys := []
    rendered := [], socketOpen := true, reconnectAttempts := 0
    timerPending := false, status := .connected }

/-- A server with alice connected (socket open) and bob absent. -/
def aliceOnlyServer : ServerState :=
  { socks := [("alice", { isOpen := true })], outbox := [] }

/-- A fixed 16-character hex string, standing for one observed output of
`crypto.randomBytes(8).toString('hex')`. -/
def hexA : String := "aaaabbbbccccdddd"

/-- The payload of alice's send to bob in the concrete scenarios. -/
def sendHiPayload : SendPayload :=
  { clientMsgId := "c1", to_ := "bob", body := "hi", ts := 1 }

/-- Alice's client after locally sending "hi" to bob (pending marker
created). -/
def aliceAfterSend : ClientState :=
  (sendMessage { aliceClient with selectedContact := "bob" } "hi" "c1" 1).1

/-- The server state and emitted frames after alice's send is submitted
while bob is offline. -/
def serverAfterSubmit : ServerState × List (String × Frame) :=
  handleSendMessage "alice" sendHiPayload 5 hexA aliceOnlyServer

/-- Alice's client after processing every frame the server emitted to her
at submit time. -/
def aliceAfterReceipt : ClientState :=
  (clientProcess aliceAfterSend (serverAfterSubmit.2.filterMap
    (fun e => if e.1 == "alice" then some e.2 else none))).1

/-- An outbox entry addressed to bob, used in the acknowledgment
scenarios. -/
def toBobMsg : Msg :=
  { serverMsgId := "m1", clientMsgId := "c1", from_ := "alice", to_ := "bob"
    body := "hi", ts := 1 }

/-- A server holding exactly the entry addressed to bob. -/
def toBobServer : ServerState := { socks := [], outbox := [toBobMsg] }

/-- The server after a second submit in the same millisecond (Date.now()
again 5) for which randomBytes returned the same bytes, with a different
clientMsgId. -/
def twoSubmitsServer : ServerState :=
  (handleSendMessage "alice" { sendHiPayload with clientMsgId := "c2" } 5 hexA
    serverAfterSubmit.1).1

/-- The new rendered entry of an unseen incoming message. -/
def incomingEntry (c : ClientState) (w : WireMsg) : Rendered :=
  { from_ := w.from_, to_ := c.currentUser, body := w.body, ts := w.ts
    clientMsgId := none, serverMsgId := some w.serverMsgId
    pending := false, delivered := false, failed := false }


/-- After the removal of an id, the Outbox lookup for that id is absent. -/
theorem getMessage_removeMessage (st : ServerState) (id : String) :
    getMessage (removeMessage st id) id = none := by
  simp only [getMessage, removeMessage, List.find?_eq_none, List.mem_filter]
  intro m hm
  simpa using hm.2

/-- C7: a submit request in which clientMessageId, `to`, or `body` is
missing or empty (falsy) is rejected with no state created: the state is
unchanged and no frame is emitted to anyone, so no serverMessageId is
assigned and no Outbox entry is added. -/
theorem submit_invalid_rejected (from_ : String) (p : SendPayload)
    (now : Nat) (randHex : String) (st : ServerState)
    (h : p.clientMsgId = "" ∨ p.to_ = "" ∨ p.body = "") :
    handleSendMessage from_ p now randHex st = (st, []) := by
  unfold handleSendMessage
  rw [if_pos h]

/-- Witness for C7: a concrete send with an empty clientMsgId leaves the
server untouched and emits nothing. -/
theorem submit_invalid_rejected_witness :
    ({ clientMsgId := "", to_ := "bob", body := "hi", ts := 1 } : SendPayload).clientMsgId = ""
    ∧ handleSendMessage "alice" { clientMsgId := "", to_ := "bob", body := "hi", ts := 1 }
        5 hexA aliceOnlyServer = (aliceOnlyServer, []) :=
  ⟨rfl, submit_invalid_rejected "alice" _ 5 hexA aliceOnlyServer (Or.inl rfl)⟩

/-- C4: acknowledge is idempotent — applying handleAckMessage a second
time with the same acking identity and serverMessageId leaves the Outbox
Store exactly as after the first call, and the second call emits nothing
and raises no error. -/
theorem acknowledge_idempotent (u id : String) (st : ServerState) :
    handleAckMessage u id (handleAckMessage u id st).1
      = ((handleAckMessage u id st).1, []) := by
  by_cases hid : id = ""
  · simp [handleAckMessage, hid]
  · cases hm : getMessage st id with
    | none =>
        have h1 : handleAckMessage u id st = (st, []) := by
          unfold handleAckMessage
          rw [if_neg hid, hm]
        rw [h1]
        exact h1
    | some msg =>
        by_cases hto : (msg.to_ == u) = true
        · have h1 : handleAckMessage u id st = (removeMessage st id, []) := by
            simp [handleAckMessage, hid, hm, hto]
          rw [h1]
          simp [handleAckMessage, hid, getMessage_removeMessage]
        · have h1 : handleAckMessage u id st = (st, []) := by
            simp [handleAckMessage, hid, hm, hto]
          rw [h1]
          exact h1

/-- C3 counterexample: an acknowledgment for an existing entry from an
identity other than the entry's recipient does NOT remove the entry — the
Outbox is unchanged and still contains it, contradicting the claim that
removal precedes the identity check. -/
theorem ack_mismatch_counterexample :
    toBobMsg.to_ ≠ "mallory"
    ∧ getMessage toBobServer "m1" = some toBobMsg
    ∧ (handleAckMessage "mallory" "m1" toBobServer).1.outbox = [toBobMsg] := by
  refine ⟨by decide, rfl, rfl⟩

/-- C3 amended: in handleAckMessage the verification of the acking
identity precedes any removal: when the entry exists but its `to` field
differs from the acking identity, the call leaves the server state
unchanged (the entry stays in the Outbox); the entry is removed exactly
when the acking identity matches. -/
theorem ack_verifies_before_removal :
    (∀ (u id : String) (st : ServerState) (msg : Msg),
        getMessage st id = some msg → msg.to_ ≠ u →
        handleAckMessage u id st = (st, []))
    ∧ (∀ (u id : String) (st : ServerState) (msg : Msg),
        id ≠ "" → getMessage st id = some msg → msg.to_ = u →
        handleAckMessage u id st = (removeMessage st id, [])) := by
  constructor
  · intro u id st msg hm hne
    by_cases hid : id = ""
    · simp [handleAckMessage, hid]
    · have hbe : (msg.to_ == u) = false := beq_eq_false_iff_ne.mpr hne
      simp [handleAckMessage, hid, hm, hbe]
  · intro u id st msg hid hm heq
    have hbe : (msg.to_ == u) = true := beq_iff_eq.mpr heq
    simp [handleAckMessage, hid, hm, hbe]

/-- Witness for C3 (amended): the mismatched acknowledgment from mallory
leaves the concrete server unchanged; the matching acknowledgment from bob
removes the entry. -/
theorem ack_verifies_before_removal_witness :
    getMessage toBobServer "m1" = some toBobMsg ∧ toBobMsg.to_ ≠ "mallory"
    ∧ handleAckMessage "mallory" "m1" toBobServer = (toBobServer, [])
    ∧ handleAckMessage "bob" "m1" toBobServer = (removeMessage toBobServer "m1", []) :=
  ⟨rfl, by decide,
   ack_verifies_before_removal.1 "mallory" "m1" toBobServer toBobMsg rfl (by decide),
   ack_verifies_before_removal.2 "bob" "m1" toBobServer toBobMsg (by decide) rfl rfl⟩

/-- C9: an inbound message whose serverMsgId is already in the Seen-Set
produces no response frame at all and leaves the client unchanged — both
on the direct incoming_message path and for a batch all of whose elements
are already seen, so a suppressed duplicate is never re-acknowledged. -/
theorem duplicate_never_reacked :
    (∀ (c : ClientState) (w : WireMsg), w.serverMsgId ∈ c.seen →
        handleIncomingMessage c w = (c, []))
    ∧ (∀ (c : ClientState) (ws : List WireMsg),
        (∀ v ∈ ws, v.serverMsgId ∈ c.seen) →
        handleUndeliveredBatch c ws = (c, [])) := by
  have hdir : ∀ (c : ClientState) (w : WireMsg), w.serverMsgId ∈ c.seen →
      handleIncomingMessage c w = (c, []) := by
    intro c w h
    unfold handleIncomingMessage
    rw [if_pos (List.elem_iff.mpr h)]
  refine ⟨hdir, ?_⟩
  intro c ws h
  induction ws with
  | nil => rfl
  | cons v rest ih =>
      have hstep : handleIncomingMessage c v = (c, []) :=
        hdir c v (h v (List.mem_cons_self v rest))
      unfold handleUndeliveredBatch at ih ⊢
      simp only [List.foldl_cons, hstep]
      exact ih (fun x hx => h x (List.mem_cons_of_mem v hx))

/-- Witness for C9: a concrete duplicate is dropped with no output, both
directly and inside a batch. -/
theorem duplicate_never_reacked_witness :
    (("m1" : String) ∈ ["m1"])
    ∧ handleIncomingMessage { aliceClient with seen := ["m1"] }
        { serverMsgId := "m1", from_ := "bob", body := "hi", ts := 1 }
        = ({ aliceClient with seen := ["m1"] }, [])
    ∧ handleUndeliveredBatch { aliceClient with seen := ["m1"] }
        [{ serverMsgId := "m1", from_ := "bob", body := "hi", ts := 1 }]
        = ({ aliceClient with seen := ["m1"] }, []) :=
  ⟨by decide,
   duplicate_never_reacked.1 _ _ (by decide),
   duplicate_never_reacked.2 _ _ (by intro v hv; rw [List.mem_singleton] at hv; rw [hv]; decide)⟩

/-- C10: an unseen incoming message from a user other than the selected
contact (and other than the current user) is added to the Seen-Set and
acknowledged to the server, yet no visual entry is appended; selecting a
contact clears the messages container; and a validated acknowledgment
removes the entry from the server Outbox — so such a message is
acknowledged and removed without ever being displayed. -/
theorem background_message_acked_unrendered :
    (∀ (c : ClientState) (w : WireMsg),
        c.selectedContact ≠ "" →
        w.from_ ≠ c.selectedContact →
        w.from_ ≠ c.currentUser →
        w.serverMsgId ∉ c.seen →
        c.socketOpen = true →
        (handleIncomingMessage c w).1.rendered = c.rendered
        ∧ (handleIncomingMessage c w).1.seen = c.seen ++ [w.serverMsgId]
        ∧ (handleIncomingMessage c w).2 = [Frame.ackMsg w.serverMsgId none none])
    ∧ (∀ (c : ClientState) (contact : String), (selectContact c contact).rendered = [])
    ∧ (∀ (st : ServerState) (m : Msg),
        (st.outbox.map (fun x => x.serverMsgId)).Nodup →
        m ∈ st.outbox → m.serverMsgId ≠ "" →
        m ∉ (handleAckMessage m.to_ m.serverMsgId st).1.outbox) := by
  refine ⟨?_, fun c contact => rfl, ?_⟩
  · intro c w hsel hfrom hfromcur hseen hopen
    refine ⟨?_, ?_, ?_⟩ <;>
      simp [handleIncomingMessage, appendMessage, hseen, hfromcur, hsel, hfrom, hopen]
  · intro st m hnd hmem hne
    unfold handleAckMessage
    rw [if_neg hne]
    cases hg : getMessage st m.serverMsgId with
    | none =>
        have := List.find?_eq_none.mp hg m hmem
        simp at this
    | some msg =>
        have hmem2 : msg ∈ st.outbox := List.mem_of_find?_eq_some hg
        have hid : msg.serverMsgId = m.serverMsgId := by
          have := List.find?_some hg
          simpa using this
        have hmm : msg = m := List.inj_on_of_nodup_map hnd hmem2 hmem hid
        subst hmm
        simp [removeMessage, List.mem_filter]

/-- Witness for C10: bob's client, chatting with carol, receives a message
from alice: it is acknowledged but not rendered; selecting a contact
clears the container; bob's acknowledgment removes the concrete entry. -/
theorem background_message_acked_unrendered_witness :
    (let bobC : ClientState :=
      { currentUser := "bob", selectedContact := "carol", seen := []
        pendingKeys := [], rendered := [], socketOpen := true
        reconnectAttempts := 0, timerPending := false, status := .connected }
     let w : WireMsg := { serverMsgId := "m1", from_ := "alice", body := "hi", ts := 1 }
     (handleIncomingMessage bobC w).1.rendered = bobC.rendered
     ∧ (handleIncomingMessage bobC w).1.seen = bobC.seen ++ [w.serverMsgId]
     ∧ (handleIncomingMessage bobC w).2 = [Frame.ackMsg w.serverMsgId none none])
    ∧ (selectContact aliceClient "carol").rendered = []
    ∧ toBobMsg ∉ (handleAckMessage toBobMsg.to_ toBobMsg.serverMsgId toBobServer).1.outbox :=
  ⟨background_message_acked_unrendered.1 _ _ (by decide) (by decide) (by decide)
      (by decide) rfl,
   background_message_acked_unrendered.2.1 aliceClient "carol",
   background_message_acked_unrendered.2.2 toBobServer toBobMsg (by decide) (by decide)
      (by decide)⟩

/-- C6: the reconnection attempt counter resets to zero on a successful
connection; an unclean close with k-1 prior consecutive failures (k in
1..5) and no timer pending schedules attempt k after exactly
min(1000 * 2^(k-1), 30000) milliseconds; and once reconnectAttempts has
reached 5, any further close schedules no attempt and surfaces the
terminal failure status. -/
theorem reconnect_backoff_spec :
    (∀ c : ClientState, (handleOpen c).reconnectAttempts = 0)
    ∧ (∀ (c : ClientState) (k : Nat), 1 ≤ k → k ≤ 5 →
        c.reconnectAttempts = k - 1 → c.timerPending = false →
        (handleClose c false).2 = some (min (1000 * 2 ^ (k - 1)) 30000))
    ∧ (∀ (c : ClientState) (b : Bool), 5 ≤ c.reconnectAttempts →
        (handleClose c b).2 = none
        ∧ (handleClose c b).1.status = ConnStatus.failedFinal
        ∧ (handleClose c b).1.reconnectAttempts = c.reconnectAttempts
        ∧ (handleClose c b).1.timerPending = c.timerPending) := by
  refine ⟨fun c => rfl, ?_, ?_⟩
  · intro c k hk1 hk5 hatt htimer
    have hlt : c.reconnectAttempts < MAX_RECONNECT_ATTEMPTS := by
      unfold MAX_RECONNECT_ATTEMPTS; omega
    simp only [handleClose, scheduleReconnect, BASE_DELAY]
    rw [if_pos ⟨by simp, hlt⟩, if_neg (by simpa using htimer)]
    simp [hatt]
  · intro c b hge
    have hnlt : ¬ (¬ b = true ∧ c.reconnectAttempts < MAX_RECONNECT_ATTEMPTS) := by
      intro h
      unfold MAX_RECONNECT_ATTEMPTS at h
      omega
    simp only [handleClose]
    rw [if_neg hnlt, if_pos (by unfold MAX_RECONNECT_ATTEMPTS; omega)]
    exact ⟨rfl, rfl, rfl, rfl⟩

/-- Witness for C6: a concrete client with two failed attempts and no
pending timer schedules the third attempt after exactly 4000 ms; a client
with five failed attempts schedules nothing and reports terminal failure. -/
theorem reconnect_backoff_spec_witness :
    (handleOpen { aliceClient with reconnectAttempts := 3 }).reconnectAttempts = 0
    ∧ (handleClose { aliceClient with reconnectAttempts := 2 } false).2
        = some (min (1000 * 2 ^ (3 - 1)) 30000)
    ∧ (handleClose { aliceClient with reconnectAttempts := 5 } false).2 = none
    ∧ (handleClose { aliceClient with reconnectAttempts := 5 } false).1.status
        = ConnStatus.failedFinal :=
  ⟨reconnect_backoff_spec.1 _,
   reconnect_backoff_spec.2.1 _ 3 (by decide) (by decide) rfl rfl,
   (reconnect_backoff_spec.2.2 _ false (by decide)).1,
   (reconnect_backoff_spec.2.2 _ false (by decide)).2.1⟩

/-- The first component of an ite of pairs sharing their first component. -/
theorem fst_ite_pair {α β : Type} (b : Prop) [Decidable b] (x : α) (y z : β) :
    (if b then (x, y) else (x, z)).1 = x := by
  split <;> rfl

/-- Draining undelivered messages never modifies the server state. -/
theorem sendUndelivered_state_id (user : String) (st : ServerState) :
    (sendUndeliveredMessages user st).1 = st := by
  unfold sendUndeliveredMessages
  exact fst_ite_pair _ _ _ _

/-- C5: a message passing field validation is appended to the Outbox
regardless of the recipient's reachability; the reconnect drain leaves the
server state (hence the Outbox) unchanged; and across every server event,
an Outbox entry can only disappear through the acknowledgment event of its
own recipient naming its serverMessageId. -/
theorem outbox_removed_only_by_ack :
    (∀ (from_ : String) (p : SendPayload) (now : Nat) (randHex : String)
        (st : ServerState),
        p.clientMsgId ≠ "" → p.to_ ≠ "" → p.body ≠ "" →
        (handleSendMessage from_ p now randHex st).1.outbox
          = st.outbox ++ [mkMsg from_ p now randHex])
    ∧ (∀ (user : String) (st : ServerState), (sendUndeliveredMessages user st).1 = st)
    ∧ (∀ (e : ServerEvent) (st : ServerState) (m : Msg),
        (st.outbox.map (fun x => x.serverMsgId)).Nodup →
        m ∈ st.outbox → m ∉ (serverStep e st).1.outbox →
        e = ServerEvent.recvAck m.to_ m.serverMsgId) := by
  refine ⟨?_, sendUndelivered_state_id, ?_⟩
  · intro from_ p now randHex st h1 h2 h3
    unfold handleSendMessage
    rw [if_neg (by simp [h1, h2, h3])]
    rfl
  · intro e st m hnd hmem hout
    cases e with
    | connect user s =>
        exfalso
        apply hout
        have hu := sendUndelivered_state_id user (registerUser st user s)
        simp only [serverStep, hu]
        simpa [registerUser] using hmem
    | disconnect user =>
        exfalso
        apply hout
        simpa [serverStep, unregisterUser] using hmem
    | recvSend user p now randHex =>
        exfalso
        apply hout
        simp only [serverStep]
        unfold handleSendMessage
        by_cases hv : p.clientMsgId = "" ∨ p.to_ = "" ∨ p.body = ""
        · rw [if_pos hv]; exact hmem
        · rw [if_neg hv]
          exact List.mem_append_left _ hmem
    | recvAck user id =>
        by_cases hid : id = ""
        · exfalso
          apply hout
          simpa [serverStep, handleAckMessage, hid] using hmem
        · simp only [serverStep] at hout
          unfold handleAckMessage at hout
          rw [if_neg hid] at hout
          cases hg : getMessage st id with
          | none => rw [hg] at hout; exact absurd hmem hout
          | some msg =>
              rw [hg] at hout
              by_cases hto : (msg.to_ == user) = true
              · simp only [hto, if_true] at hout
                have hmid : (m.serverMsgId == id) = true := by
                  by_contra hcon
                  apply hout
                  simp only [removeMessage, List.mem_filter]
                  refine ⟨hmem, ?_⟩
                  cases hb : (m.serverMsgId == id) with
                  | false => simp [hb]
                  | true => exact absurd hb hcon
                have hmid2 : m.serverMsgId = id := by simpa using hmid
                have hmsgmem : msg ∈ st.outbox := List.mem_of_find?_eq_some hg
                have hmsgid : msg.serverMsgId = id := by
                  simpa using List.find?_some hg
                have hmm : msg = m :=
                  List.inj_on_of_nodup_map hnd hmsgmem hmem (hmsgid.trans hmid2.symm)
                have huser : user = m.to_ := by
                  have := (beq_iff_eq.mp hto).symm
                  rw [hmm] at this
                  exact this
                rw [huser, hmid2]
              · rw [Bool.not_eq_true] at hto
                simp only [hto, Bool.false_eq_true, if_false] at hout
                exact absurd hmem hout
    | recvPing user now =>
        exfalso
        apply hout
        simpa [serverStep] using hmem

/-- Witness for C5: the concrete offline submit appends the message to the
Outbox; draining for bob leaves the concrete server unchanged; bob's
acknowledgment event is the one removing the concrete entry. -/
theorem outbox_removed_only_by_ack_witness :
    serverAfterSubmit.1.outbox = aliceOnlyServer.outbox ++ [mkMsg "alice" sendHiPayload 5 hexA]
    ∧ (sendUndeliveredMessages "bob" toBobServer).1 = toBobServer
    ∧ ServerEvent.recvAck "bob" "m1"
        = ServerEvent.recvAck toBobMsg.to_ toBobMsg.serverMsgId :=
  ⟨outbox_removed_only_by_ack.1 "alice" sendHiPayload 5 hexA aliceOnlyServer
      (by decide) (by decide) (by decide),
   outbox_removed_only_by_ack.2.1 "bob" toBobServer,
   outbox_removed_only_by_ack.2.2 (ServerEvent.recvAck "bob" "m1") toBobServer toBobMsg
      (by decide) (by decide) (by decide)⟩

/-- Case analysis of handleIncomingMessage on an unseen id: the id is
appended to the Seen-Set, and the container is unchanged or gains exactly
the one new entry. -/
theorem handleIncomingMessage_not_seen (c : ClientState) (w : WireMsg)
    (hs : w.serverMsgId ∉ c.seen) :
    (handleIncomingMessage c w).1.seen = c.seen ++ [w.serverMsgId]
    ∧ ((handleIncomingMessage c w).1.rendered = c.rendered
       ∨ (handleIncomingMessage c w).1.rendered = c.rendered ++ [incomingEntry c w]) := by
  by_cases hcond : c.selectedContact ≠ ""
      ∧ (if w.from_ = c.currentUser then c.currentUser else w.from_) ≠ c.selectedContact
  · refine ⟨?_, Or.inl ?_⟩ <;>
      · simp [handleIncomingMessage, appendMessage, hs, hcond]
        rw [fst_ite_pair]
  · refine ⟨?_, Or.inr ?_⟩ <;>
      · simp [handleIncomingMessage, appendMessage, incomingEntry, hs, hcond]
        rw [fst_ite_pair]

/-- handleIncomingMessage preserves the rendering invariant. -/
theorem renderInv_incoming (c : ClientState) (w : WireMsg) (h : RenderInv c) :
    RenderInv (handleIncomingMessage c w).1 := by
  by_cases hs : w.serverMsgId ∈ c.seen
  · have heq : handleIncomingMessage c w = (c, []) := by
      unfold handleIncomingMessage
      rw [if_pos (List.elem_iff.mpr hs)]
    rw [heq]
    exact h
  · obtain ⟨hseen, hrend⟩ := handleIncomingMessage_not_seen c w hs
    rcases hrend with hr | hr
    · refine ⟨fun id => ?_, fun x hx id hid => ?_⟩
      · rw [hr]; exact h.1 id
      · rw [hseen]
        rw [hr] at hx
        exact List.mem_append_left _ (h.2 x hx id hid)
    · constructor
      · intro idq
        rw [hr, List.countP_append]
        by_cases hqq : idq = w.serverMsgId
        · subst hqq
          have hz : c.rendered.countP (fun x => x.serverMsgId == some w.serverMsgId) = 0 := by
            apply List.countP_eq_zero.mpr
            intro x hx hpx
            exact hs (h.2 x hx w.serverMsgId (by simpa using hpx))
          have hone :
              List.countP (fun x => x.serverMsgId == some w.serverMsgId) [incomingEntry c w]
                ≤ 1 := by
            simpa using List.countP_le_length
              (p := fun x => x.serverMsgId == some w.serverMsgId)
              (l := [incomingEntry c w])
          omega
        · have hz : List.countP (fun x => x.serverMsgId == some idq) [incomingEntry c w]
              = 0 := by
            apply List.countP_eq_zero.mpr
            intro x hx hpx
            rw [List.mem_singleton] at hx
            subst hx
            have hws : w.serverMsgId = idq := by simpa [incomingEntry] using hpx
            exact hqq hws.symm
          have := h.1 idq
          omega
      · intro x hx id hid
        rw [hseen]
        rw [hr] at hx
        rcases List.mem_append.mp hx with h1 | h2
        · exact List.mem_append_left _ (h.2 x h1 id hid)
        · rw [List.mem_singleton] at h2
          subst h2
          have : w.serverMsgId = id := by simpa [incomingEntry] using hid
          rw [← this]
          exact List.mem_append_right _ (List.mem_singleton.mpr rfl)

/-- handleUndeliveredBatch preserves the rendering invariant, whatever the
accumulated outputs. -/
theorem renderInv_batch (ws : List WireMsg) :
    ∀ acc : ClientState × List Frame, RenderInv acc.1 →
      RenderInv ((ws.foldl (fun acc m =>
        let r := handleIncomingMessage acc.1 m
        (r.1, acc.2 ++ r.2)) acc).1) := by
  induction ws with
  | nil => intro acc h; exact h
  | cons v rest ih =>
      intro acc h
      simp only [List.foldl_cons]
      exact ih _ (renderInv_incoming acc.1 v h)

/-- Every delivery path preserves the rendering invariant. -/
theorem renderInv_deliveries (ds : List DeliveryFrame) :
    ∀ c : ClientState, RenderInv c → RenderInv (applyDeliveries c ds) := by
  induction ds with
  | nil => intro c h; exact h
  | cons d rest ih =>
      intro c h
      unfold applyDeliveries
      simp only [List.foldl_cons]
      apply ih
      cases d with
      | direct w => exact renderInv_incoming c w h
      | batch ws => exact renderInv_batch ws (c, []) h

/-- C2: across every sequence of direct incoming_message deliveries and
undelivered_batch deliveries, a client whose container satisfies the
rendering invariant keeps at most one rendered entry per serverMsgId —
batch contents go through the same incoming-message path with the same
Seen-Set deduplication. -/
theorem no_duplicate_renders (c : ClientState) (ds : List DeliveryFrame)
    (h : RenderInv c) (id : String) :
    (applyDeliveries c ds).rendered.countP (fun r => r.serverMsgId == some id) ≤ 1 :=
  (renderInv_deliveries ds c h).1 id

/-- Witness for C2: a fresh client receiving the same serverMsgId first
directly and then inside an undelivered batch renders it at most once. -/
theorem no_duplicate_renders_witness :
    (applyDeliveries aliceClient
        [DeliveryFrame.direct { serverMsgId := "m1", from_ := "bob", body := "hi", ts := 1 },
         DeliveryFrame.batch [{ serverMsgId := "m1", from_ := "bob", body := "hi", ts := 1 }]]
      ).rendered.countP (fun r => r.serverMsgId == some "m1") ≤ 1 :=
  no_duplicate_renders aliceClient _
    ⟨fun id => by simp [aliceClient], fun r hr => by simp [aliceClient] at hr⟩ "m1"

/-- C1 counterexample: alice submits "hi" to bob while bob is offline and
has never had a session. The server emits the ack_message frame (with
clientMsgId) to alice AT SUBMIT TIME; alice's pending marker becomes
confirmed (delivered, pending cleared, serverMsgId recorded) although the
message still sits unacknowledged in the Outbox — no recipient Client
Session ever existed, let alone emitted an acknowledgment. -/
theorem sender_confirmed_without_recipient_ack :
    serverAfterSubmit.2
      = [("alice", Frame.ackMsg (generateMessageId 5 hexA) (some "c1") (some "bob"))]
    ∧ aliceAfterSend.rendered.map (fun r => (r.pending, r.delivered)) = [(true, false)]
    ∧ aliceAfterReceipt.rendered.map (fun r => (r.pending, r.delivered, r.serverMsgId))
        = [(false, true, some (generateMessageId 5 hexA))]
    ∧ aliceAfterReceipt.pendingKeys = []
    ∧ serverAfterSubmit.1.outbox.map (fun m => m.serverMsgId)
        = [generateMessageId 5 hexA] :=
  ⟨rfl, rfl, rfl, rfl, rfl⟩

/-- C1 amended: the ack_message frame clearing the sender's pending marker
is the transport receipt generated by the server inside handleSendMessage
itself: whenever a valid payload is submitted and the sender's socket is
open it is emitted at submit time, regardless of the recipient's state;
the server's handleAckMessage (the recipient acknowledgment path) emits
no frame to anyone, so the marker is confirmed upon server acceptance and
not gated on any recipient acknowledgment. -/
theorem transport_receipt_clears_marker :
    (∀ (from_ : String) (p : SendPayload) (now : Nat) (randHex : String)
        (st : ServerState) (s : Sock),
        p.clientMsgId ≠ "" → p.to_ ≠ "" → p.body ≠ "" →
        getSocket st from_ = some s → s.isOpen = true →
        (from_, Frame.ackMsg (generateMessageId now randHex) (some p.clientMsgId)
            (some p.to_)) ∈ (handleSendMessage from_ p now randHex st).2)
    ∧ (∀ (u id : String) (st : ServerState), (handleAckMessage u id st).2 = []) := by
  constructor
  · intro from_ p now randHex st s h1 h2 h3 hsock hopen
    unfold handleSendMessage
    rw [if_neg (by simp [h1, h2, h3])]
    simp only [hsock, hopen]
    refine List.mem_append.mpr (Or.inr ?_)
    simp [mkMsg]
  · intro u id st
    by_cases hid : id = ""
    · simp [handleAckMessage, hid]
    · cases hm : getMessage st id with
      | none => simp [handleAckMessage, hid, hm]
      | some msg =>
          by_cases hto : (msg.to_ == u) = true
          · simp [handleAckMessage, hid, hm, hto]
          · simp [handleAckMessage, hid, hm, hto]

/-- Witness for C1 (amended): in the concrete offline-recipient scenario
the transport receipt to alice is among the frames handleSendMessage
emits, and a concrete handleAckMessage call emits nothing. -/
theorem transport_receipt_clears_marker_witness :
    ("alice", Frame.ackMsg (generateMessageId 5 hexA) (some "c1") (some "bob"))
      ∈ serverAfterSubmit.2
    ∧ (handleAckMessage "bob" "m1" toBobServer).2 = [] :=
  ⟨transport_receipt_clears_marker.1 "alice" sendHiPayload 5 hexA aliceOnlyServer
      { isOpen := true } (by decide) (by decide) (by decide) rfl rfl,
   transport_receipt_clears_marker.2 "bob" "m1" toBobServer⟩

/-- Nat.digitChar is injective below 10. -/
theorem digitChar_inj_lt {a b : Nat} (ha : a < 10) (hb : b < 10)
    (h : Nat.digitChar a = Nat.digitChar b) : a = b := by
  have hfin : ∀ x : Fin 10, ∀ y : Fin 10,
      Nat.digitChar x.val = Nat.digitChar y.val → x = y := by decide
  exact congrArg Fin.val (hfin ⟨a, ha⟩ ⟨b, hb⟩ h)

/-- Mapping Nat.digitChar over lists of decimal digits is injective. -/
theorem map_digitChar_inj : ∀ (l1 l2 : List Nat),
    (∀ x ∈ l1, x < 10) → (∀ x ∈ l2, x < 10) →
    l1.map Nat.digitChar = l2.map Nat.digitChar → l1 = l2 := by
  intro l1
  induction l1 with
  | nil =>
      intro l2 _ _ h
      cases l2 with
      | nil => rfl
      | cons b t => simp at h
  | cons a t ih =>
      intro l2 h1 h2 h
      cases l2 with
      | nil => simp at h
      | cons b t2 =>
          simp only [List.map_cons, List.cons.injEq] at h
          have hab := digitChar_inj_lt (h1 a (List.mem_cons_self a t))
            (h2 b (List.mem_cons_self b t2)) h.1
          have ht := ih t2 (fun x hx => h1 x (List.mem_cons_of_mem a hx))
            (fun x hx => h2 x (List.mem_cons_of_mem b hx)) h.2
          rw [hab, ht]

/-- The decimal rendering of a natural number determines the number. -/
theorem decRepr_inj : ∀ m n : Nat, decRepr m = decRepr n → m = n := by
  have key : ∀ n : Nat, n ≠ 0 → decRepr n = "0" → False := by
    intro n hn h
    have hd : ((Nat.digits 10 n).map Nat.digitChar).reverse = ['0'] := by
      rw [decRepr, if_neg hn] at h
      exact congrArg String.data h
    have hmap : (Nat.digits 10 n).map Nat.digitChar = ['0'] := by
      have := congrArg List.reverse hd
      simpa using this
    cases hdig : Nat.digits 10 n with
    | nil => rw [hdig] at hmap; simp at hmap
    | cons d rest =>
        rw [hdig] at hmap
        simp only [List.map_cons, List.cons.injEq] at hmap
        have hrest : rest = [] := List.map_eq_nil_iff.mp hmap.2
        have hdlt : d < 10 :=
          Nat.digits_lt_base (by norm_num) (hdig ▸ List.mem_cons_self d rest)
        have hd0 : d = 0 := digitChar_inj_lt hdlt (by norm_num) hmap.1
        have : n = 0 := by
          have hofd := Nat.ofDigits_digits 10 n
          rw [hdig, hrest, hd0] at hofd
          simpa [Nat.ofDigits] using hofd.symm
        exact hn this
  intro m n h
  by_cases hm : m = 0 <;> by_cases hn : n = 0
  · rw [hm, hn]
  · subst hm
    exact absurd (h.symm.trans (by rw [decRepr]; simp)) (fun hh => key n hn hh)
  · subst hn
    exact absurd (h.trans (by rw [decRepr]; simp)) (fun hh => key m hm hh)
  · rw [decRepr, if_neg hm, decRepr, if_neg hn] at h
    have hd : ((Nat.digits 10 m).map Nat.digitChar).reverse
        = ((Nat.digits 10 n).map Nat.digitChar).reverse := congrArg String.data h
    have hmap := List.reverse_inj.mp hd
    have hdig := map_digitChar_inj _ _
      (fun x hx => Nat.digits_lt_base (by norm_num) hx)
      (fun x hx => Nat.digits_lt_base (by norm_num) hx) hmap
    exact Nat.digits_inj_iff.mp hdig

/-- C8 counterexample: two submits in the same millisecond for which
crypto.randomBytes returns the same 8 bytes produce two distinct Outbox
entries carrying the SAME serverMessageId — the timestamp-plus-random
construction does not guarantee uniqueness. -/
theorem serverMsgId_collision :
    twoSubmitsServer.outbox.map (fun m => m.serverMsgId)
      = [generateMessageId 5 hexA, generateMessageId 5 hexA]
    ∧ twoSubmitsServer.outbox.map (fun m => m.clientMsgId) = ["c1", "c2"] :=
  ⟨rfl, rfl⟩

/-- C8 amended: serverMessageIds are unique whenever no two submit calls
observe the same (Date.now(), randomBytes) environment pair — distinct
timestamp/random-hex input pairs always yield distinct generated ids
(the 16-character random hex part has fixed length, so the decimal
timestamp and the random part are both recovered from the id). -/
theorem generateMessageId_unique (t1 t2 : Nat) (r1 r2 : String)
    (h1 : r1.length = 16) (h2 : r2.length = 16)
    (hne : (t1, r1) ≠ (t2, r2)) :
    generateMessageId t1 r1 ≠ generateMessageId t2 r2 := by
  intro h
  apply hne
  have hdata : (decRepr t1).data ++ ('-' :: r1.data)
      = (decRepr t2).data ++ ('-' :: r2.data) := by
    have hd := congrArg String.data h
    simpa [generateMessageId, String.data_append, List.append_assoc] using hd
  have hlen : ('-' :: r1.data).length = ('-' :: r2.data).length := by
    have e1 : r1.data.length = 16 := h1
    have e2 : r2.data.length = 16 := h2
    simp [e1, e2]
  obtain ⟨hpre, hsuf⟩ := List.append_inj' hdata hlen
  have hr : r1 = r2 := by
    apply String.ext
    injection hsuf
  have ht : t1 = t2 := decRepr_inj t1 t2 (String.ext hpre)
  rw [ht, hr]

/-- Witness for C8 (amended): the same random hex at two different
timestamps yields distinct serverMessageIds. -/
theorem generateMessageId_unique_witness :
    hexA.length = 16 ∧ ((5 : Nat), hexA) ≠ ((6 : Nat), hexA)
    ∧ generateMessageId 5 hexA ≠ generateMessageId 6 hexA :=
  ⟨by decide, by decide,
   generateMessageId_unique 5 6 hexA hexA (by decide) (by decide) (by decide)⟩

end Chat
